import Mathlib

/-!
Shallow embedding of the bitcoin-guess-predictor core: the guess lifecycle
engine (makeGuess / resolveGuess handlers), the DynamoDB access layer
(player and guess records, score arithmetic with its floor condition), and
the price oracle (primary-or-fallback fetch and the process-local cache).

Modelling conventions:
  - opaque string identifiers (playerId, guessId) are modelled as naturals;
  - JS numbers holding prices are modelled as rationals;
  - ISO timestamps are modelled as naturals (milliseconds);
  - a DynamoDB table is an association list from key to record; an
    UpdateItem call on a missing key creates the record (Dynamo semantics),
    with unset attributes modelled by the fields of `defaultPlayer`;
  - an attribute that may be absent on a record is an `Option` field;
  - network calls are modelled by passing their outcome as an argument,
    and each handler result records which effects were performed.
-/

namespace BitcoinGuess

/-- Constants from src/config/constants.js (APP_CONFIG.CACHE_TTL). -/
def CACHE_TTL : Nat := 200000

/-- Constants from src/config/constants.js (BITCOIN_API.FALLBACK_PRICE_MIN). -/
def FALLBACK_PRICE_MIN : ℚ := 45000

/-- Constants from src/config/constants.js (BITCOIN_API.FALLBACK_PRICE_MAX). -/
def FALLBACK_PRICE_MAX : ℚ := 55000

/-- Constants from src/config/constants.js (SCORE_CHANGES.WIN). -/
def SCORE_WIN : ℤ := 1

/-- Constants from src/config/constants.js (SCORE_CHANGES.LOSS). -/
def SCORE_LOSS : ℤ := -1

/-- Constants from src/config/constants.js (APP_CONFIG.GUESS_RESOLUTION_DELAY, ms). -/
def GUESS_RESOLUTION_DELAY : Nat := 60000

/-- Guess direction (GUESS_DIRECTION constants: 'up' / 'down'). -/
inductive Direction where
  | up
  | down
deriving DecidableEq

/-- Guess status (GUESS_STATUS constants: 'ACTIVE' / 'WON' / 'LOST'). -/
inductive GuessStatus where
  | active
  | won
  | lost
deriving DecidableEq

/-- A player record in the PLAYERS table. The `score` attribute may be
absent (`none`); name and the two timestamps are the remaining attributes
written by the registration handler. -/
structure Player where
  score : Option ℤ
  name : String
  createdAt : Nat
  lastActive : Nat
deriving DecidableEq

/-- A guess record in the GUESSES table, as built by the makeGuess handler.
`currentPrice` is the snapshot price at creation (the field name used by
the code); `resolvePrice` and `resolvedAt` are set at resolution. -/
structure Guess where
  guessId : Nat
  playerId : Nat
  direction : Direction
  currentPrice : ℚ
  status : GuessStatus
  createdAt : Nat
  resolveAt : Nat
  resolvePrice : Option ℚ
  resolvedAt : Option Nat
deriving DecidableEq

/-- Keyed lookup in an association-list table. -/
def lookupK {β : Type} (k : Nat) : List (Nat × β) → Option β
  | [] => none
  | (k', v) :: rest => if k' = k then some v else lookupK k rest

/-- Write a record under a key: replace the existing binding, or append a
fresh one (DynamoDB put/update-as-create). -/
def upsert {β : Type} (k : Nat) (v : β) : List (Nat × β) → List (Nat × β)
  | [] => [(k, v)]
  | (k', v') :: rest => if k' = k then (k, v) :: rest else (k', v') :: upsert k v rest

/-- The durable store: the PLAYERS and GUESSES DynamoDB tables. -/
structure Db where
  players : List (Nat × Player)
  guesses : List (Nat × Guess)
deriving DecidableEq

theorem lookupK_upsert_self {β : Type} (k : Nat) (v : β) (l : List (Nat × β)) :
    lookupK k (upsert k v l) = some v := by
  induction l with
  | nil => simp [upsert, lookupK]
  | cons hd tl ih =>
    obtain ⟨k', v'⟩ := hd
    by_cases h : k' = k
    · simp [upsert, h, lookupK]
    · simp [upsert, h, lookupK, ih]

theorem lookupK_upsert_ne {β : Type} (k j : Nat) (v : β) (l : List (Nat × β))
    (h : j ≠ k) : lookupK j (upsert k v l) = lookupK j l := by
  induction l with
  | nil => simp [upsert, lookupK, if_neg (Ne.symm h)]
  | cons hd tl ih =>
    obtain ⟨k', v'⟩ := hd
    by_cases hk : k' = k
    · subst hk
      simp [upsert, lookupK, if_neg (Ne.symm h)]
    · simp only [upsert, if_neg hk, lookupK]
      by_cases hj : k' = j
      · simp [hj]
      · simp [hj, ih]

/-- A player record created implicitly by an UpdateItem on a missing key:
every attribute other than the ones the update sets is absent. -/
def defaultPlayer : Player := ⟨none, "", 0, 0⟩

/-- Embedding of `updatePlayerLastActive` (dynamodb.js): an UpdateItem
setting only `lastActive`, returning ALL_NEW attributes. -/
def updatePlayerLastActive (db : Db) (pid : Nat) (now : Nat) : Db × Player :=
  let p0 := (lookupK pid db.players).getD defaultPlayer
  let p1 := { p0 with lastActive := now }
  ({ db with players := upsert pid p1 db.players }, p1)

/-- Embedding of `updateGuessResolution` (dynamodb.js): an UpdateItem
setting `status`, `resolvePrice` and `resolvedAt`, returning ALL_NEW. -/
def updateGuessResolution (db : Db) (gid : Nat) (st : GuessStatus) (rp : ℚ)
    (now : Nat) : Db × Guess :=
  let g0 := (lookupK gid db.guesses).getD ⟨gid, 0, .up, 0, .active, 0, 0, none, none⟩
  let g1 := { g0 with status := st, resolvePrice := some rp, resolvedAt := some now }
  ({ db with guesses := upsert gid g1 db.guesses }, g1)

/-- Embedding of `updatePlayerScore` (dynamodb.js). For `scoreChange >= 0`
a single unconditional update `score = if_not_exists(score, 0) + scoreChange,
lastActive = now`. For `scoreChange < 0` a conditional update guarded by
`attribute_exists(score) AND score >= 1` that subtracts the constant 1;
when the condition fails (ConditionalCheckFailedException) a fallback
update sets `lastActive = now, score = if_not_exists(score, 0)`. -/
def updatePlayerScore (db : Db) (pid : Nat) (scoreChange : ℤ) (now : Nat) :
    Db × Player :=
  if 0 ≤ scoreChange then
    let p0 := (lookupK pid db.players).getD defaultPlayer
    let p1 := { p0 with score := some (p0.score.getD 0 + scoreChange), lastActive := now }
    ({ db with players := upsert pid p1 db.players }, p1)
  else
    match lookupK pid db.players with
    | some p =>
      match p.score with
      | some s =>
        if 1 ≤ s then
          let p1 := { p with score := some (s - 1), lastActive := now }
          ({ db with players := upsert pid p1 db.players }, p1)
        else
          let p1 := { p with score := some s, lastActive := now }
          ({ db with players := upsert pid p1 db.players }, p1)
      | none =>
        let p1 := { p with score := some 0, lastActive := now }
        ({ db with players := upsert pid p1 db.players }, p1)
    | none =>
      let p1 := { defaultPlayer with score := some 0, lastActive := now }
      ({ db with players := upsert pid p1 db.players }, p1)

/-- Outcome of one call to the primary price source `getCurrentBitcoinPrice`
(bitcoin.js): a well-formed numeric price, or a failure (transport error,
timeout, malformed response shape — all rejected as an error message). -/
inductive PriceFetch where
  | ok (price : ℚ)
  | fail (msg : String)
deriving DecidableEq

/-- Rounding to 2 decimal places, `Math.round(x * 100) / 100` (bitcoin.js
line 69). JS `Math.round` is round-half-up, which is Mathlib's `round`. -/
def roundTo2 (x : ℚ) : ℚ := ((round (x * 100) : ℤ) : ℚ) / 100

/-- Embedding of `getBitcoinPriceWithFallback` (bitcoin.js): return the
primary price on success; on any primary failure return
`FALLBACK_PRICE_MIN + r * (FALLBACK_PRICE_MAX - FALLBACK_PRICE_MIN)`
rounded to 2 decimals, where `r` is the `Math.random()` draw in [0, 1).
The function is total: it never fails, whatever the primary outcome. -/
def getBitcoinPriceWithFallback (primary : PriceFetch) (r : ℚ) : ℚ :=
  match primary with
  | .ok price => price
  | .fail _ =>
    roundTo2 (FALLBACK_PRICE_MIN + r * (FALLBACK_PRICE_MAX - FALLBACK_PRICE_MIN))

/-- The process-local price cache object (bitcoin.js `priceCache`):
`price` and `timestamp` start as null. -/
structure PriceCache where
  price : Option ℚ
  timestamp : Option Nat
  ttl : Nat
deriving DecidableEq

/-- JS truthiness of the cache's nullable price field (null and 0 are falsy). -/
def truthyQ : Option ℚ → Bool
  | none => false
  | some p => decide (p ≠ 0)

/-- JS truthiness of the cache's nullable timestamp field (null and 0 are falsy). -/
def truthyN : Option Nat → Bool
  | none => false
  | some t => decide (t ≠ 0)

/-- Result of one `getCachedBitcoinPrice` call: the `{price, timestamp}`
object on success, or the propagated error. -/
inductive CacheRead where
  | ok (price : ℚ) (timestamp : Option Nat)
  | fail (msg : String)
deriving DecidableEq

/-- Embedding of `getCachedBitcoinPrice` (bitcoin.js). If the cache holds a
truthy price and timestamp younger than the ttl, serve it unchanged.
Otherwise run the primary-or-fallback fetch (its outcome passed as
`fetch`): on success serve and cache the fresh value; on failure serve the
stale cached value if any price is cached, else propagate the error. -/
def getCachedBitcoinPrice (c : PriceCache) (now : Nat) (fetch : PriceFetch) :
    CacheRead × PriceCache :=
  if truthyQ c.price = true ∧ truthyN c.timestamp = true ∧
      now - c.timestamp.getD 0 < c.ttl then
    (.ok (c.price.getD 0) c.timestamp, c)
  else
    match fetch with
    | .ok p => (.ok p (some now), ⟨some p, some now, CACHE_TTL⟩)
    | .fail e =>
      if truthyQ c.price = true then
        (.ok (c.price.getD 0) c.timestamp, c)
      else
        (.fail e, c)

/-- Embedding of `const priceWentUp = currentPrice > guess.currentPrice`
(resolveGuess handler): strict comparison of resolution price against the
snapshot price. -/
def priceWentUp (snapshot current : ℚ) : Bool := decide (snapshot < current)

/-- Embedding of the outcome formula of the resolveGuess handler:
`(direction === UP && priceWentUp) || (direction === DOWN && !priceWentUp)`. -/
def guessWasCorrect (dir : Direction) (rose : Bool) : Bool :=
  (decide (dir = Direction.up) && rose) || (decide (dir = Direction.down) && !rose)

/-- Response of the resolveGuess handler, one constructor per shape the
handler can build: an error response (status code and error code), the
already-resolved success payload `{message, result, alreadyResolved}`, and
the fresh-resolution success payload `{message, result, newScore,
priceChange: {initial, final, direction}}`. `result` is 'win' or 'loss'. -/
inductive RResp where
  | err (status : Nat) (code : String)
  | already (result : String)
  | resolved (result : String) (newScore : Option ℤ) (initial : ℚ) (final : ℚ)
      (dirStr : String)
deriving DecidableEq

/-- The `result` field carried by a resolveGuess success response. -/
def respResult : RResp → Option String
  | .err _ _ => none
  | .already r => some r
  | .resolved r _ _ _ _ => some r

/-- The resolution price carried by a resolveGuess success response (the
`priceChange.final` field); the already-resolved payload carries none. -/
def respFinalPrice : RResp → Option ℚ
  | .resolved _ _ _ f _ => some f
  | _ => none

/-- Whether a resolveGuess response is the already-resolved payload. -/
def isAlready : RResp → Bool
  | .already _ => true
  | _ => false

/-- Result of one resolveGuess handler run: the response, the durable store
afterwards, and whether the handler fetched a price from the oracle. -/
structure ResolveRun where
  response : RResp
  db : Db
  priceFetched : Bool
deriving DecidableEq

/-- Embedding of the resolveGuess handler (after event parsing): look the
guess up; 404 if absent; 403 if owned by a different player; if already
terminal, answer `{result, alreadyResolved}` without fetching a price or
writing; otherwise fetch the current price (`price` is the value the
uncached oracle path returns — it is total, see
`getBitcoinPriceWithFallback`), compute the outcome, and perform the two
updates `updateGuessResolution` and `updatePlayerScore`. -/
def resolveGuess (db : Db) (gid uid : Nat) (price : ℚ) (now : Nat) : ResolveRun :=
  match lookupK gid db.guesses with
  | none => ⟨.err 404 "GUESS_NOT_FOUND", db, false⟩
  | some g =>
    if g.playerId ≠ uid then
      ⟨.err 403 "UNAUTHORIZED", db, false⟩
    else if g.status ≠ GuessStatus.active then
      ⟨.already (if g.status = GuessStatus.won then "win" else "loss"), db, false⟩
    else
      let rose := priceWentUp g.currentPrice price
      let correct := guessWasCorrect g.direction rose
      let st := if correct then GuessStatus.won else GuessStatus.lost
      let change := if correct then SCORE_WIN else SCORE_LOSS
      let r1 := updateGuessResolution db gid st price now
      let r2 := updatePlayerScore r1.1 uid change now
      ⟨.resolved (if correct then "win" else "loss") r2.2.score g.currentPrice price
          (if rose then "up" else "down"), r2.1, true⟩

/-- Response of the makeGuess handler: an error response, or the 201
success payload `{message, guessId, timestamp}`. -/
inductive MResp where
  | err (status : Nat) (code : String)
  | created (guessId : Nat) (timestamp : Nat)
deriving DecidableEq

/-- Result of one makeGuess handler run: the response, the durable store
afterwards, whether a price snapshot was fetched, and whether the
EventBridge schedule was created (false both when it was never attempted
and when the attempt threw — the handler swallows the failure). -/
structure MakeGuessRun where
  response : MResp
  db : Db
  priceFetched : Bool
  scheduled : Bool
deriving DecidableEq

/-- Whether some guess of this player is in status ACTIVE — the existence
test the handler performs through `getActiveGuessForPlayer` (a query on
the playerId+status index, Limit 1). -/
def hasActiveGuess (l : List (Nat × Guess)) (uid : Nat) : Bool :=
  match l with
  | [] => false
  | (_, g) :: rest =>
    if g.playerId = uid ∧ g.status = GuessStatus.active then true
    else hasActiveGuess rest uid

/-- Embedding of the makeGuess handler (after body validation): 404 if the
player does not exist, 409 if the player already has an ACTIVE guess; both
checks precede the price fetch. Otherwise fetch a snapshot price (`price`),
build the guess (status ACTIVE, resolveAt = now + 60 s) under the fresh
identifier `newId`, and put it with `attribute_not_exists(guessId)` — a
conditional failure is caught by the outer handler as a 409 conflict.
Scheduling the resolution (`schedOk` is that call's outcome) is wrapped in
try/catch: its failure never rolls back the put nor fails the request. -/
def makeGuess (db : Db) (uid : Nat) (dir : Direction) (price : ℚ) (newId : Nat)
    (now : Nat) (schedOk : Bool) : MakeGuessRun :=
  match lookupK uid db.players with
  | none => ⟨.err 404 "PLAYER_NOT_FOUND", db, false, false⟩
  | some _ =>
    if hasActiveGuess db.guesses uid then
      ⟨.err 409 "ACTIVE_GUESS_EXISTS", db, false, false⟩
    else
      let g : Guess :=
        ⟨newId, uid, dir, price, GuessStatus.active, now,
          now + GUESS_RESOLUTION_DELAY, none, none⟩
      match lookupK newId db.guesses with
      | some _ => ⟨.err 409 "CONFLICT_ERROR", db, true, false⟩
      | none =>
        let db' := { db with guesses := upsert newId g db.guesses }
        ⟨.created newId now, db', true, schedOk⟩

/-- Response of the getPlayerState handler: an error response, or the
success payload carrying the player's score, the current (cached) price
and the player's most recent guess (`latestGuess`, possibly null). -/
inductive GPSResp where
  | err (status : Nat) (code : String)
  | ok (score : Option ℤ) (currentPrice : ℚ) (latest : Option Guess)
deriving DecidableEq

/-- The most recent guess of a player: the first item of the
`getLatestGuessForPlayer` query (playerId+time index, newest first). -/
def latestGuessFor (l : List (Nat × Guess)) (uid : Nat) : Option Guess :=
  match l with
  | [] => none
  | (_, g) :: rest =>
    match latestGuessFor rest uid with
    | none => if g.playerId = uid then some g else none
    | some h =>
      if g.playerId = uid ∧ h.createdAt ≤ g.createdAt then some g else some h

/-- Embedding of the getPlayerState handler (after path-parameter
validation): 404 if the player does not exist; otherwise read the latest
guess and the cached price (its fresh-fetch outcome passed as `fetch`), and
touch the player's lastActive timestamp via `updatePlayerLastActive`. A
cache-read failure rejects the awaited pair, so the handler answers 500
before touching the store. -/
def getPlayerState (db : Db) (uid : Nat) (c : PriceCache) (now : Nat)
    (fetch : PriceFetch) : GPSResp × Db × PriceCache :=
  match lookupK uid db.players with
  | none => (.err 404 "PLAYER_NOT_FOUND", db, c)
  | some pl =>
    let res := getCachedBitcoinPrice c now fetch
    match res.1 with
    | .ok p _ =>
      ((.ok pl.score p (latestGuessFor db.guesses uid)),
        (updatePlayerLastActive db uid now).1, res.2)
    | .fail _ => (.err 500 "INTERNAL_ERROR", db, res.2)

/-- A sequence of score adjustments (playerId, delta, timestamp) applied in
order through `updatePlayerScore` — the shape of any run of win/loss
settlements as far as scores are concerned. -/
def applyScoreOps (db : Db) : List (Nat × ℤ × Nat) → Db
  | [] => db
  | (pid, d, t) :: rest => applyScoreOps (updatePlayerScore db pid d t).1 rest

/-- Every player record present in the store has a nonnegative score
(an absent score attribute counts as 0). -/
def scoresNonneg (db : Db) : Prop :=
  ∀ k p, lookupK k db.players = some p → 0 ≤ p.score.getD 0

theorem updatePlayerScore_guesses (db : Db) (pid : Nat) (d : ℤ) (t : Nat) :
    (updatePlayerScore db pid d t).1.guesses = db.guesses := by
  by_cases h : 0 ≤ d
  · simp [updatePlayerScore, h]
  · cases hl : lookupK pid db.players with
    | none => simp [updatePlayerScore, h, hl]
    | some p =>
      cases hs : p.score with
      | none => simp [updatePlayerScore, h, hl, hs]
      | some s =>
        by_cases h1 : 1 ≤ s
        · simp [updatePlayerScore, h, hl, hs, h1]
        · simp [updatePlayerScore, h, hl, hs, h1]

theorem scoresNonneg_upsert {db : Db} {pid : Nat} {p1 : Player}
    (h : scoresNonneg db) (hp : 0 ≤ p1.score.getD 0) :
    ∀ k p, lookupK k (upsert pid p1 db.players) = some p → 0 ≤ p.score.getD 0 := by
  intro k p hk
  by_cases hkp : k = pid
  · subst hkp
    rw [lookupK_upsert_self] at hk
    cases hk
    exact hp
  · rw [lookupK_upsert_ne _ _ _ _ hkp] at hk
    exact h k p hk

theorem getD_score_nonneg {db : Db} {pid : Nat} (h : scoresNonneg db) :
    0 ≤ (((lookupK pid db.players).getD defaultPlayer).score).getD 0 := by
  cases hl : lookupK pid db.players with
  | none => simp [defaultPlayer]
  | some p => simpa using h pid p hl

theorem updatePlayerScore_preserves_nonneg (db : Db) (pid : Nat) (d : ℤ) (t : Nat)
    (h : scoresNonneg db) : scoresNonneg (updatePlayerScore db pid d t).1 := by
  by_cases hd : 0 ≤ d
  · simp only [updatePlayerScore, if_pos hd]
    exact scoresNonneg_upsert h
      (by simpa using add_nonneg (getD_score_nonneg h) hd)
  · cases hl : lookupK pid db.players with
    | none =>
      simp only [updatePlayerScore, if_neg hd, hl]
      exact scoresNonneg_upsert h (by simp)
    | some p =>
      cases hs : p.score with
      | none =>
        simp only [updatePlayerScore, if_neg hd, hl, hs]
        exact scoresNonneg_upsert h (by simp)
      | some s =>
        by_cases h1 : 1 ≤ s
        · simp only [updatePlayerScore, if_neg hd, hl, hs, if_pos h1]
          exact scoresNonneg_upsert h (by simpa using by linarith)
        · simp only [updatePlayerScore, if_neg hd, hl, hs, if_neg h1]
          refine scoresNonneg_upsert h ?_
          have hsc := h pid p hl
          rw [hs] at hsc
          simpa using hsc

/-- C4: for every player and every sequence of win/loss settlements (score
adjustments with positive and negative deltas), the score is never observed
negative: every single `updatePlayerScore` call preserves the all-scores-
nonnegative invariant, hence so does any sequence of such calls (every
intermediate state is the result of applying a prefix). -/
theorem score_never_negative (db : Db) (hinv : scoresNonneg db) :
    (∀ pid d t, scoresNonneg (updatePlayerScore db pid d t).1) ∧
    (∀ ops, scoresNonneg (applyScoreOps db ops)) := by
  constructor
  · intro pid d t
    exact updatePlayerScore_preserves_nonneg db pid d t hinv
  · intro ops
    induction ops generalizing db with
    | nil => exact hinv
    | cons op rest ih =>
      obtain ⟨pid, d, t⟩ := op
      exact ih _ (updatePlayerScore_preserves_nonneg db pid d t hinv)

/-- Witness for C4: a concrete run (loss at score 0, a win, two losses)
ends with the player's score at 0, not negative. -/
theorem score_never_negative_witness :
    0 ≤ (Player.score ⟨some 0, "ada", 0, 8⟩).getD 0 := by
  refine (score_never_negative ⟨[(7, ⟨some 0, "ada", 0, 0⟩)], []⟩ ?_).2
    [(7, -1, 5), (7, 1, 6), (7, -1, 7), (7, -1, 8)] 7 ⟨some 0, "ada", 0, 8⟩ (by decide)
  intro k p hp
  by_cases h7 : (7 : Nat) = k
  · simp [lookupK, h7] at hp
    simp [← hp]
  · simp [lookupK, h7] at hp

/-- C3 counterexample: the claim demands, for delta = -2 and current score
1 < |−2|, that the score be left at 1; the code's decrement path is guarded
by `score >= 1` and subtracts the constant 1 regardless of the configured
magnitude, so it moves the score from 1 to 0. -/
theorem updatePlayerScore_magnitude_counterexample :
    (updatePlayerScore ⟨[(7, ⟨some 1, "ada", 0, 0⟩)], []⟩ 7 (-2) 99).2.score = some 0 ∧
    ¬ (updatePlayerScore ⟨[(7, ⟨some 1, "ada", 0, 0⟩)], []⟩ 7 (-2) 99).2.score = some 1 := by
  decide

/-- C3 amended: for every delta < 0 the code ignores the magnitude of delta
(all negative deltas act identically): it subtracts exactly 1 when the
score attribute exists with value at least 1, and otherwise leaves the
score at its current value (absent treated as 0); every case advances the
last-active timestamp, and only this player's record changes. -/
theorem updatePlayerScore_decrement_floor (db : Db) (pid : Nat) (delta : ℤ)
    (now : Nat) (hneg : delta < 0) :
    (updatePlayerScore db pid delta now).2.lastActive = now ∧
    (∀ delta', delta' < 0 →
      updatePlayerScore db pid delta' now = updatePlayerScore db pid delta now) ∧
    (∀ p s, lookupK pid db.players = some p → p.score = some s → 1 ≤ s →
      (updatePlayerScore db pid delta now).2 =
        { p with score := some (s - 1), lastActive := now }) ∧
    (∀ p s, lookupK pid db.players = some p → p.score = some s → s < 1 →
      (updatePlayerScore db pid delta now).2 =
        { p with score := some s, lastActive := now }) ∧
    (∀ p, lookupK pid db.players = some p → p.score = none →
      (updatePlayerScore db pid delta now).2 =
        { p with score := some 0, lastActive := now }) ∧
    (lookupK pid db.players = none →
      (updatePlayerScore db pid delta now).2 =
        { defaultPlayer with score := some 0, lastActive := now }) ∧
    (updatePlayerScore db pid delta now).1.players =
      upsert pid (updatePlayerScore db pid delta now).2 db.players ∧
    (updatePlayerScore db pid delta now).1.guesses = db.guesses := by
  have hnle : ¬ 0 ≤ delta := not_le.mpr hneg
  refine ⟨?_, ?_, ?_, ?_, ?_, ?_, ?_, updatePlayerScore_guesses db pid delta now⟩
  · cases hl : lookupK pid db.players with
    | none => simp [updatePlayerScore, hnle, hl]
    | some p =>
      cases hs : p.score with
      | none => simp [updatePlayerScore, hnle, hl, hs]
      | some s =>
        by_cases h1 : 1 ≤ s
        · simp [updatePlayerScore, hnle, hl, hs, h1]
        · simp [updatePlayerScore, hnle, hl, hs, h1]
  · intro delta' hneg'
    simp only [updatePlayerScore, if_neg (not_le.mpr hneg'), if_neg hnle]
  · intro p s hl hs h1
    simp [updatePlayerScore, hnle, hl, hs, h1]
  · intro p s hl hs h1
    simp [updatePlayerScore, hnle, hl, hs, not_le.mpr h1]
  · intro p hl hs
    simp [updatePlayerScore, hnle, hl, hs]
  · intro hl
    simp [updatePlayerScore, hnle, hl]
  · cases hl : lookupK pid db.players with
    | none => simp [updatePlayerScore, hnle, hl]
    | some p =>
      cases hs : p.score with
      | none => simp [updatePlayerScore, hnle, hl, hs]
      | some s =>
        by_cases h1 : 1 ≤ s
        · simp [updatePlayerScore, hnle, hl, hs, h1]
        · simp [updatePlayerScore, hnle, hl, hs, h1]

/-- Witness for C3's amended theorem: a loss at score 1 lands on 0 with the
timestamp advanced, and delta = -5 acts exactly as delta = -2. -/
theorem updatePlayerScore_decrement_floor_witness :
    (updatePlayerScore ⟨[(7, ⟨some 1, "ada", 0, 0⟩)], []⟩ 7 (-2) 99).2.lastActive = 99 ∧
    updatePlayerScore ⟨[(7, ⟨some 1, "ada", 0, 0⟩)], []⟩ 7 (-5) 99 =
      updatePlayerScore ⟨[(7, ⟨some 1, "ada", 0, 0⟩)], []⟩ 7 (-2) 99 ∧
    (updatePlayerScore ⟨[(7, ⟨some 1, "ada", 0, 0⟩)], []⟩ 7 (-2) 99).2 =
      { (⟨some 1, "ada", 0, 0⟩ : Player) with score := some 0, lastActive := 99 } := by
  have h := updatePlayerScore_decrement_floor ⟨[(7, ⟨some 1, "ada", 0, 0⟩)], []⟩ 7
    (-2) 99 (by decide)
  refine ⟨h.1, h.2.1 (-5) (by decide), ?_⟩
  have h3 := h.2.2.1 ⟨some 1, "ada", 0, 0⟩ 1 (by decide) rfl (by decide)
  simpa using h3

theorem guessWasCorrect_iff (dir : Direction) (snap p : ℚ) :
    guessWasCorrect dir (priceWentUp snap p) = true ↔
      ((dir = Direction.up ∧ snap < p) ∨ (dir = Direction.down ∧ ¬ snap < p)) := by
  cases dir <;> simp [guessWasCorrect, priceWentUp]

theorem resolveGuess_active_run (db : Db) (gid uid : Nat) (p : ℚ) (now : Nat)
    (g : Guess) (hg : lookupK gid db.guesses = some g) (hown : g.playerId = uid)
    (hact : g.status = GuessStatus.active) :
    resolveGuess db gid uid p now =
      let correct := guessWasCorrect g.direction (priceWentUp g.currentPrice p)
      let g1 := { g with
        status := if correct then GuessStatus.won else GuessStatus.lost,
        resolvePrice := some p, resolvedAt := some now }
      let db1 : Db := { db with guesses := upsert gid g1 db.guesses }
      let r2 := updatePlayerScore db1 uid (if correct then SCORE_WIN else SCORE_LOSS) now
      ⟨.resolved (if correct then "win" else "loss") r2.2.score g.currentPrice p
          (if priceWentUp g.currentPrice p then "up" else "down"), r2.1, true⟩ := by
  simp only [resolveGuess, hg]
  rw [if_neg (by simp [hown]), if_neg (by simp [hact])]
  simp only [updateGuessResolution, hg, Option.getD_some]

/-- C2: for every active guess settled at current price p against snapshot
price s, the handler computes `priceWentUp` by the strict comparison s < p,
stores status WON exactly when (direction = up and s < p) or (direction =
down and not s < p), and on the boundary p = s stores LOST for direction up
and WON for direction down. -/
theorem resolveGuess_outcome (db : Db) (gid uid : Nat) (p : ℚ) (now : Nat)
    (g : Guess) (hg : lookupK gid db.guesses = some g) (hown : g.playerId = uid)
    (hact : g.status = GuessStatus.active) :
    (priceWentUp g.currentPrice p = true ↔ g.currentPrice < p) ∧
    lookupK gid (resolveGuess db gid uid p now).db.guesses =
      some { g with
        status :=
          if (g.direction = Direction.up ∧ g.currentPrice < p) ∨
              (g.direction = Direction.down ∧ ¬ g.currentPrice < p)
            then GuessStatus.won else GuessStatus.lost,
        resolvePrice := some p, resolvedAt := some now } ∧
    respResult (resolveGuess db gid uid p now).response =
      some (if (g.direction = Direction.up ∧ g.currentPrice < p) ∨
              (g.direction = Direction.down ∧ ¬ g.currentPrice < p)
        then "win" else "loss") ∧
    (p = g.currentPrice →
      lookupK gid (resolveGuess db gid uid p now).db.guesses =
        some { g with
          status := if g.direction = Direction.up then GuessStatus.lost
            else GuessStatus.won,
          resolvePrice := some p, resolvedAt := some now }) := by
  have hrun := resolveGuess_active_run db gid uid p now g hg hown hact
  by_cases hcond : (g.direction = Direction.up ∧ g.currentPrice < p) ∨
      (g.direction = Direction.down ∧ ¬ g.currentPrice < p)
  · have hb : guessWasCorrect g.direction (priceWentUp g.currentPrice p) = true :=
      (guessWasCorrect_iff _ _ _).mpr hcond
    rcases hcond with ⟨hdir, hlt⟩ | ⟨hdir, hnlt⟩
    · rw [hdir] at hb
      refine ⟨by simp [priceWentUp], ?_, ?_, ?_⟩
      · simp [hrun, hb, hdir, hlt, updatePlayerScore_guesses, lookupK_upsert_self]
      · simp [hrun, hb, hdir, hlt, respResult]
      · intro hp
        subst hp
        exact absurd hlt (lt_irrefl _)
    · rw [hdir] at hb
      refine ⟨by simp [priceWentUp], ?_, ?_, ?_⟩
      · simp [hrun, hb, hdir, not_lt.mp hnlt, updatePlayerScore_guesses,
          lookupK_upsert_self]
      · simp [hrun, hb, hdir, not_lt.mp hnlt, respResult]
      · intro hp
        subst hp
        simp [hrun, hb, hdir, updatePlayerScore_guesses, lookupK_upsert_self]
  · have hb : guessWasCorrect g.direction (priceWentUp g.currentPrice p) = false := by
      cases h' : guessWasCorrect g.direction (priceWentUp g.currentPrice p)
      · rfl
      · exact absurd ((guessWasCorrect_iff _ _ _).mp h') hcond
    have hcond' : ¬ (g.direction = Direction.up ∧ g.currentPrice < p ∨
        g.direction = Direction.down ∧ p ≤ g.currentPrice) := by
      simpa [not_lt] using hcond
    refine ⟨by simp [priceWentUp], ?_, ?_, ?_⟩
    · simp [hrun, hb, hcond', updatePlayerScore_guesses, lookupK_upsert_self]
    · simp [hrun, hb, hcond', respResult]
    · intro hp
      subst hp
      cases hdir : g.direction with
      | up =>
        rw [hdir] at hb
        simp [hrun, hb, hdir, updatePlayerScore_guesses, lookupK_upsert_self]
      | down => exact absurd (Or.inr ⟨hdir, lt_irrefl _⟩) hcond

/-- Witness for C2: a concrete up-guess at snapshot 50000 settled at 50500
is stored WON with resolvePrice 50500. -/
theorem resolveGuess_outcome_witness :
    lookupK 1 (resolveGuess
        ⟨[(7, ⟨some 0, "ada", 0, 0⟩)],
          [(1, ⟨1, 7, .up, 50000, .active, 0, 60000, none, none⟩)]⟩
        1 7 50500 100).db.guesses =
      some ⟨1, 7, .up, 50000, .won, 0, 60000, some 50500, some 100⟩ := by
  have h := resolveGuess_outcome
    ⟨[(7, ⟨some 0, "ada", 0, 0⟩)],
      [(1, ⟨1, 7, .up, 50000, .active, 0, 60000, none, none⟩)]⟩
    1 7 50500 100 ⟨1, 7, .up, 50000, .active, 0, 60000, none, none⟩
    (by decide) rfl rfl
  have h2 := h.2.1
  rw [h2]
  norm_num

theorem resolveGuess_terminal (db : Db) (gid uid : Nat) (p : ℚ) (now : Nat)
    (g : Guess) (hg : lookupK gid db.guesses = some g) (hown : g.playerId = uid)
    (hterm : g.status ≠ GuessStatus.active) :
    resolveGuess db gid uid p now =
      ⟨.already (if g.status = GuessStatus.won then "win" else "loss"), db, false⟩ := by
  simp [resolveGuess, hg, hown, hterm]

/-- C1 counterexample: against the claim that a second Settle returns the
same (status, resolvePrice) outcome pair as the original settlement, the
already-resolved branch answers `{result, alreadyResolved}` with no
resolution price: the first call's pair is (win, 50500) while the second
call's pair is (win, none). -/
theorem resolveGuess_idempotent_counterexample :
    (respResult (resolveGuess (resolveGuess
          ⟨[(7, ⟨some 0, "ada", 0, 0⟩)],
            [(1, ⟨1, 7, .up, 50000, .active, 0, 60000, none, none⟩)]⟩
          1 7 50500 100).db 1 7 50500 200).response,
      respFinalPrice (resolveGuess (resolveGuess
          ⟨[(7, ⟨some 0, "ada", 0, 0⟩)],
            [(1, ⟨1, 7, .up, 50000, .active, 0, 60000, none, none⟩)]⟩
          1 7 50500 100).db 1 7 50500 200).response) ≠
    (respResult (resolveGuess
          ⟨[(7, ⟨some 0, "ada", 0, 0⟩)],
            [(1, ⟨1, 7, .up, 50000, .active, 0, 60000, none, none⟩)]⟩
          1 7 50500 100).response,
      respFinalPrice (resolveGuess
          ⟨[(7, ⟨some 0, "ada", 0, 0⟩)],
            [(1, ⟨1, 7, .up, 50000, .active, 0, 60000, none, none⟩)]⟩
          1 7 50500 100).response) := by
  decide

/-- C1 amended: settling an already-settled guess is idempotent in result
and state: the second call returns the same win/loss result as the original
settlement, flagged alreadyResolved but carrying no resolution price, and
performs no mutation at all — it neither fetches a price nor changes the
store (guess record, score, or timestamps). -/
theorem resolveGuess_settle_idempotent (db : Db) (gid uid : Nat) (p p₂ : ℚ)
    (now now₂ : Nat) (g : Guess) (hg : lookupK gid db.guesses = some g)
    (hown : g.playerId = uid) (hact : g.status = GuessStatus.active) :
    respResult (resolveGuess (resolveGuess db gid uid p now).db gid uid p₂ now₂).response =
      respResult (resolveGuess db gid uid p now).response ∧
    isAlready (resolveGuess (resolveGuess db gid uid p now).db gid uid p₂ now₂).response = true ∧
    respFinalPrice (resolveGuess (resolveGuess db gid uid p now).db gid uid p₂ now₂).response = none ∧
    (resolveGuess (resolveGuess db gid uid p now).db gid uid p₂ now₂).db =
      (resolveGuess db gid uid p now).db ∧
    (resolveGuess (resolveGuess db gid uid p now).db gid uid p₂ now₂).priceFetched = false := by
  have hrun := resolveGuess_active_run db gid uid p now g hg hown hact
  cases hb : guessWasCorrect g.direction (priceWentUp g.currentPrice p) with
  | true =>
    have hl : lookupK gid (resolveGuess db gid uid p now).db.guesses =
        some { g with
          status := GuessStatus.won,
          resolvePrice := some p,
          resolvedAt := some now } := by
      simp [hrun, hb, updatePlayerScore_guesses, lookupK_upsert_self]
    have hsec : resolveGuess (resolveGuess db gid uid p now).db gid uid p₂ now₂ =
        ⟨.already "win", (resolveGuess db gid uid p now).db, false⟩ := by
      have h := resolveGuess_terminal (resolveGuess db gid uid p now).db gid uid
        p₂ now₂ _ hl (by simp [hown]) (by simp)
      simpa using h
    have hresp : respResult (resolveGuess db gid uid p now).response = some "win" := by
      simp [hrun, hb, respResult]
    refine ⟨?_, ?_, ?_, ?_, ?_⟩
    · simp only [hsec, hresp]
      simp [respResult]
    · simp [hsec, isAlready]
    · simp [hsec, respFinalPrice]
    · simp [hsec]
    · simp [hsec]
  | false =>
    have hl : lookupK gid (resolveGuess db gid uid p now).db.guesses =
        some { g with
          status := GuessStatus.lost,
          resolvePrice := some p,
          resolvedAt := some now } := by
      simp [hrun, hb, updatePlayerScore_guesses, lookupK_upsert_self]
    have hsec : resolveGuess (resolveGuess db gid uid p now).db gid uid p₂ now₂ =
        ⟨.already "loss", (resolveGuess db gid uid p now).db, false⟩ := by
      have h := resolveGuess_terminal (resolveGuess db gid uid p now).db gid uid
        p₂ now₂ _ hl (by simp [hown]) (by simp)
      simpa using h
    have hresp : respResult (resolveGuess db gid uid p now).response = some "loss" := by
      simp [hrun, hb, respResult]
    refine ⟨?_, ?_, ?_, ?_, ?_⟩
    · simp only [hsec, hresp]
      simp [respResult]
    · simp [hsec, isAlready]
    · simp [hsec, respFinalPrice]
    · simp [hsec]
    · simp [hsec]

/-- Witness for C1's amended theorem: the concrete double settlement. -/
theorem resolveGuess_settle_idempotent_witness :
    respResult (resolveGuess (resolveGuess
        ⟨[(7, ⟨some 0, "ada", 0, 0⟩)],
          [(1, ⟨1, 7, .up, 50000, .active, 0, 60000, none, none⟩)]⟩
        1 7 50500 100).db 1 7 49000 200).response =
      respResult (resolveGuess
        ⟨[(7, ⟨some 0, "ada", 0, 0⟩)],
          [(1, ⟨1, 7, .up, 50000, .active, 0, 60000, none, none⟩)]⟩
        1 7 50500 100).response ∧
    (resolveGuess (resolveGuess
        ⟨[(7, ⟨some 0, "ada", 0, 0⟩)],
          [(1, ⟨1, 7, .up, 50000, .active, 0, 60000, none, none⟩)]⟩
        1 7 50500 100).db 1 7 49000 200).priceFetched = false := by
  have h := resolveGuess_settle_idempotent
    ⟨[(7, ⟨some 0, "ada", 0, 0⟩)],
      [(1, ⟨1, 7, .up, 50000, .active, 0, 60000, none, none⟩)]⟩
    1 7 50500 49000 100 200 ⟨1, 7, .up, 50000, .active, 0, 60000, none, none⟩
    (by decide) rfl rfl
  exact ⟨h.1, h.2.2.2.2⟩

/-- C9: a settle request whose guess identifier is unknown fails with the
not-found error, and one whose guess is owned by a different player fails
with the authorization error; in both cases the store (guesses and players)
is returned unchanged and no price is fetched. -/
theorem resolveGuess_precondition_failures (db : Db) (gid uid : Nat) (p : ℚ)
    (now : Nat) :
    (lookupK gid db.guesses = none →
      resolveGuess db gid uid p now = ⟨.err 404 "GUESS_NOT_FOUND", db, false⟩) ∧
    (∀ g, lookupK gid db.guesses = some g → g.playerId ≠ uid →
      resolveGuess db gid uid p now = ⟨.err 403 "UNAUTHORIZED", db, false⟩) := by
  constructor
  · intro h
    simp [resolveGuess, h]
  · intro g hgl hne
    simp [resolveGuess, hgl, hne]

/-- Witness for C9: a missing guess identifier and a mismatched owner on a
concrete store. -/
theorem resolveGuess_precondition_failures_witness :
    resolveGuess ⟨[], [(1, ⟨1, 7, .up, 50000, .active, 0, 60000, none, none⟩)]⟩
        2 7 50000 10 =
      ⟨.err 404 "GUESS_NOT_FOUND",
        ⟨[], [(1, ⟨1, 7, .up, 50000, .active, 0, 60000, none, none⟩)]⟩, false⟩ ∧
    resolveGuess ⟨[], [(1, ⟨1, 7, .up, 50000, .active, 0, 60000, none, none⟩)]⟩
        1 8 50000 10 =
      ⟨.err 403 "UNAUTHORIZED",
        ⟨[], [(1, ⟨1, 7, .up, 50000, .active, 0, 60000, none, none⟩)]⟩, false⟩ := by
  constructor
  · exact (resolveGuess_precondition_failures
      ⟨[], [(1, ⟨1, 7, .up, 50000, .active, 0, 60000, none, none⟩)]⟩ 2 7 50000 10).1
      (by decide)
  · exact (resolveGuess_precondition_failures
      ⟨[], [(1, ⟨1, 7, .up, 50000, .active, 0, 60000, none, none⟩)]⟩ 1 8 50000 10).2
      ⟨1, 7, .up, 50000, .active, 0, 60000, none, none⟩ (by decide) (by decide)

/-- C7: a create-guess request for an unknown player fails 404, and one for
a player who already has an ACTIVE guess fails 409; in both cases the store
is returned unchanged (no guess is created) and no price snapshot is
fetched — both checks precede the oracle call. -/
theorem makeGuess_precondition_failures (db : Db) (uid : Nat) (dir : Direction)
    (price : ℚ) (newId now : Nat) (schedOk : Bool) :
    (lookupK uid db.players = none →
      makeGuess db uid dir price newId now schedOk =
        ⟨.err 404 "PLAYER_NOT_FOUND", db, false, false⟩) ∧
    (∀ pl, lookupK uid db.players = some pl → hasActiveGuess db.guesses uid = true →
      makeGuess db uid dir price newId now schedOk =
        ⟨.err 409 "ACTIVE_GUESS_EXISTS", db, false, false⟩) := by
  constructor
  · intro h
    simp [makeGuess, h]
  · intro pl hpl hact
    simp [makeGuess, hpl, hact]

/-- Witness for C7: a missing player and a player with an active guess on a
concrete store. -/
theorem makeGuess_precondition_failures_witness :
    makeGuess ⟨[(7, ⟨some 0, "ada", 0, 0⟩)],
        [(1, ⟨1, 7, .up, 50000, .active, 0, 60000, none, none⟩)]⟩
        9 .up 50000 2 10 true =
      ⟨.err 404 "PLAYER_NOT_FOUND",
        ⟨[(7, ⟨some 0, "ada", 0, 0⟩)],
          [(1, ⟨1, 7, .up, 50000, .active, 0, 60000, none, none⟩)]⟩, false, false⟩ ∧
    makeGuess ⟨[(7, ⟨some 0, "ada", 0, 0⟩)],
        [(1, ⟨1, 7, .up, 50000, .active, 0, 60000, none, none⟩)]⟩
        7 .up 50000 2 10 true =
      ⟨.err 409 "ACTIVE_GUESS_EXISTS",
        ⟨[(7, ⟨some 0, "ada", 0, 0⟩)],
          [(1, ⟨1, 7, .up, 50000, .active, 0, 60000, none, none⟩)]⟩, false, false⟩ := by
  constructor
  · exact (makeGuess_precondition_failures
      ⟨[(7, ⟨some 0, "ada", 0, 0⟩)],
        [(1, ⟨1, 7, .up, 50000, .active, 0, 60000, none, none⟩)]⟩
      9 .up 50000 2 10 true).1 (by decide)
  · exact (makeGuess_precondition_failures
      ⟨[(7, ⟨some 0, "ada", 0, 0⟩)],
        [(1, ⟨1, 7, .up, 50000, .active, 0, 60000, none, none⟩)]⟩
      7 .up 50000 2 10 true).2 ⟨some 0, "ada", 0, 0⟩ (by decide) (by decide)

/-- C8: when the put of the new guess succeeds and the subsequent
scheduling call fails, the create operation neither rolls back nor fails:
it still answers 201 with the fresh guess identifier and the creation
timestamp, the guess remains recorded with status ACTIVE (resolveAt 60 s
later), the player table is untouched, and no schedule was armed. -/
theorem makeGuess_scheduling_failure_no_rollback (db : Db) (uid : Nat)
    (dir : Direction) (price : ℚ) (newId now : Nat) (pl : Player)
    (hpl : lookupK uid db.players = some pl)
    (hact : hasActiveGuess db.guesses uid = false)
    (hfresh : lookupK newId db.guesses = none) :
    (makeGuess db uid dir price newId now false).response = .created newId now ∧
    (makeGuess db uid dir price newId now false).scheduled = false ∧
    lookupK newId (makeGuess db uid dir price newId now false).db.guesses =
      some ⟨newId, uid, dir, price, GuessStatus.active, now,
        now + GUESS_RESOLUTION_DELAY, none, none⟩ ∧
    (makeGuess db uid dir price newId now false).db.players = db.players := by
  have h1 : makeGuess db uid dir price newId now false =
      ⟨.created newId now,
        ⟨db.players,
          upsert newId
            ⟨newId, uid, dir, price, GuessStatus.active, now,
              now + GUESS_RESOLUTION_DELAY, none, none⟩ db.guesses⟩,
        true, false⟩ := by
    simp [makeGuess, hpl, hact, hfresh]
  refine ⟨?_, ?_, ?_, ?_⟩ <;> simp [h1, lookupK_upsert_self]

/-- Witness for C8: a concrete create whose scheduling call fails still
records the ACTIVE guess and answers created. -/
theorem makeGuess_scheduling_failure_no_rollback_witness :
    (makeGuess ⟨[(7, ⟨some 0, "ada", 0, 0⟩)], []⟩ 7 .up 50000 2 10 false).response =
      .created 2 10 ∧
    (makeGuess ⟨[(7, ⟨some 0, "ada", 0, 0⟩)], []⟩ 7 .up 50000 2 10 false).scheduled =
      false ∧
    lookupK 2 (makeGuess ⟨[(7, ⟨some 0, "ada", 0, 0⟩)], []⟩
        7 .up 50000 2 10 false).db.guesses =
      some ⟨2, 7, .up, 50000, GuessStatus.active, 10, 10 + GUESS_RESOLUTION_DELAY,
        none, none⟩ := by
  have h := makeGuess_scheduling_failure_no_rollback
    ⟨[(7, ⟨some 0, "ada", 0, 0⟩)], []⟩ 7 .up 50000 2 10 ⟨some 0, "ada", 0, 0⟩
    (by decide) (by decide) (by decide)
  exact ⟨h.1, h.2.1, h.2.2.1⟩

/-- C10: a successful player-state read mutates no guess record and no
player field other than the queried player's lastActive timestamp: every
other player record is unchanged, the queried player keeps score, name and
createdAt, and the response reports the stored score and the cached
price. -/
theorem getPlayerState_frame (db : Db) (uid : Nat) (c : PriceCache) (now : Nat)
    (fetch : PriceFetch) (pl : Player) (p : ℚ) (ts : Option Nat)
    (hpl : lookupK uid db.players = some pl)
    (hok : (getCachedBitcoinPrice c now fetch).1 = CacheRead.ok p ts) :
    (getPlayerState db uid c now fetch).2.1.guesses = db.guesses ∧
    lookupK uid (getPlayerState db uid c now fetch).2.1.players =
      some { pl with lastActive := now } ∧
    (∀ k, k ≠ uid →
      lookupK k (getPlayerState db uid c now fetch).2.1.players =
        lookupK k db.players) ∧
    (getPlayerState db uid c now fetch).1 =
      .ok pl.score p (latestGuessFor db.guesses uid) := by
  have hup : getPlayerState db uid c now fetch =
      (.ok pl.score p (latestGuessFor db.guesses uid),
        (updatePlayerLastActive db uid now).1,
        (getCachedBitcoinPrice c now fetch).2) := by
    simp [getPlayerState, hpl, hok]
  refine ⟨?_, ?_, ?_, ?_⟩
  · simp [hup, updatePlayerLastActive]
  · simp [hup, updatePlayerLastActive, hpl, lookupK_upsert_self]
  · intro k hk
    simp [hup, updatePlayerLastActive, lookupK_upsert_ne _ _ _ _ hk]
  · simp [hup]

/-- Witness for C10: a concrete read off a warm cache touches only the
player's lastActive timestamp. -/
theorem getPlayerState_frame_witness :
    (getPlayerState ⟨[(7, ⟨some 0, "ada", 0, 0⟩)],
        [(1, ⟨1, 7, .up, 50000, .won, 0, 60000, some 50500, some 100⟩)]⟩
        7 ⟨some 50000, some 1000, 200000⟩ 1200 (.fail "x")).2.1.guesses =
      [(1, ⟨1, 7, .up, 50000, .won, 0, 60000, some 50500, some 100⟩)] ∧
    lookupK 7 (getPlayerState ⟨[(7, ⟨some 0, "ada", 0, 0⟩)],
        [(1, ⟨1, 7, .up, 50000, .won, 0, 60000, some 50500, some 100⟩)]⟩
        7 ⟨some 50000, some 1000, 200000⟩ 1200 (.fail "x")).2.1.players =
      some ⟨some 0, "ada", 0, 1200⟩ := by
  have h := getPlayerState_frame
    ⟨[(7, ⟨some 0, "ada", 0, 0⟩)],
      [(1, ⟨1, 7, .up, 50000, .won, 0, 60000, some 50500, some 100⟩)]⟩
    7 ⟨some 50000, some 1000, 200000⟩ 1200 (.fail "x")
    ⟨some 0, "ada", 0, 0⟩ 50000 (some 1000) (by decide) (by decide)
  exact ⟨h.1, h.2.1⟩

/-- C5: the primary-or-fallback price operation is total — on a primary
success it returns that price unchanged, and on every primary failure
(whatever the error) it returns the fallback draw, which lies in the fixed
configured range [FALLBACK_PRICE_MIN, FALLBACK_PRICE_MAX] and is an exact
multiple of 1/100 (rounded to 2 decimal places); no upstream error ever
propagates. -/
theorem getBitcoinPriceWithFallback_contract (r : ℚ) (e : String)
    (hr0 : 0 ≤ r) (hr1 : r < 1) :
    (∀ q, getBitcoinPriceWithFallback (.ok q) r = q) ∧
    FALLBACK_PRICE_MIN ≤ getBitcoinPriceWithFallback (.fail e) r ∧
    getBitcoinPriceWithFallback (.fail e) r ≤ FALLBACK_PRICE_MAX ∧
    (∃ n : ℤ, getBitcoinPriceWithFallback (.fail e) r = (n : ℚ) / 100) := by
  have hlow : (4500000 : ℤ) ≤
      round ((FALLBACK_PRICE_MIN + r * (FALLBACK_PRICE_MAX - FALLBACK_PRICE_MIN)) * 100) := by
    rw [round_eq]
    refine Int.le_floor.mpr ?_
    simp only [FALLBACK_PRICE_MIN, FALLBACK_PRICE_MAX]
    push_cast
    nlinarith
  have hhigh :
      round ((FALLBACK_PRICE_MIN + r * (FALLBACK_PRICE_MAX - FALLBACK_PRICE_MIN)) * 100) ≤
        5500000 := by
    rw [round_eq]
    have hfl : ⌊(FALLBACK_PRICE_MIN + r * (FALLBACK_PRICE_MAX - FALLBACK_PRICE_MIN)) * 100
        + 1 / 2⌋ < (5500001 : ℤ) := by
      refine Int.floor_lt.mpr ?_
      simp only [FALLBACK_PRICE_MIN, FALLBACK_PRICE_MAX]
      push_cast
      nlinarith
    omega
  refine ⟨fun q => rfl, ?_, ?_,
    ⟨round ((FALLBACK_PRICE_MIN + r * (FALLBACK_PRICE_MAX - FALLBACK_PRICE_MIN)) * 100),
      rfl⟩⟩
  · show FALLBACK_PRICE_MIN ≤ roundTo2 (FALLBACK_PRICE_MIN + r * (FALLBACK_PRICE_MAX - FALLBACK_PRICE_MIN))
    rw [roundTo2, le_div_iff₀ (by norm_num : (0 : ℚ) < 100)]
    calc FALLBACK_PRICE_MIN * 100 = ((4500000 : ℤ) : ℚ) := by
          simp [FALLBACK_PRICE_MIN]
          norm_num
      _ ≤ _ := by exact_mod_cast hlow
  · show roundTo2 (FALLBACK_PRICE_MIN + r * (FALLBACK_PRICE_MAX - FALLBACK_PRICE_MIN)) ≤ FALLBACK_PRICE_MAX
    rw [roundTo2, div_le_iff₀ (by norm_num : (0 : ℚ) < 100)]
    calc ((round ((FALLBACK_PRICE_MIN + r * (FALLBACK_PRICE_MAX - FALLBACK_PRICE_MIN)) * 100) : ℤ) : ℚ)
        ≤ ((5500000 : ℤ) : ℚ) := by exact_mod_cast hhigh
      _ = FALLBACK_PRICE_MAX * 100 := by
          simp [FALLBACK_PRICE_MAX]
          norm_num

/-- Witness for C5: at random draw 1/2 a primary success passes through and
a timeout lands the fallback in the configured range. -/
theorem getBitcoinPriceWithFallback_contract_witness :
    getBitcoinPriceWithFallback (.ok 51234) (1 / 2) = 51234 ∧
    FALLBACK_PRICE_MIN ≤ getBitcoinPriceWithFallback (.fail "timeout") (1 / 2) ∧
    getBitcoinPriceWithFallback (.fail "timeout") (1 / 2) ≤ FALLBACK_PRICE_MAX := by
  have h := getBitcoinPriceWithFallback_contract (1 / 2) "timeout"
    (by norm_num) (by norm_num)
  exact ⟨h.1 51234, h.2.1, h.2.2.1⟩

theorem getCachedBitcoinPrice_hit (c : PriceCache) (now : Nat) (f : PriceFetch)
    (hcond : truthyQ c.price = true ∧ truthyN c.timestamp = true ∧
      now - c.timestamp.getD 0 < c.ttl) :
    getCachedBitcoinPrice c now f = (.ok (c.price.getD 0) c.timestamp, c) := by
  unfold getCachedBitcoinPrice
  rw [if_pos hcond]

theorem getCachedBitcoinPrice_ok_cache (c : PriceCache) (now : Nat)
    (fetch : PriceFetch) (p : ℚ) (ts : Nat)
    (h : (getCachedBitcoinPrice c now fetch).1 = CacheRead.ok p (some ts)) :
    (getCachedBitcoinPrice c now fetch).2.price = some p ∧
    (getCachedBitcoinPrice c now fetch).2.timestamp = some ts := by
  by_cases hcond : truthyQ c.price = true ∧ truthyN c.timestamp = true ∧
      now - c.timestamp.getD 0 < c.ttl
  · rw [getCachedBitcoinPrice_hit c now fetch hcond] at h ⊢
    obtain ⟨hq, hts⟩ : c.price.getD 0 = p ∧ c.timestamp = some ts := by
      simpa using h
    refine ⟨?_, hts⟩
    have := hcond.1
    cases hc : c.price with
    | none => rw [hc] at this; simp [truthyQ] at this
    | some q =>
      rw [hc] at hq
      simp at hq
      rw [hq]
  · cases hf : fetch with
    | ok q =>
      have hres : getCachedBitcoinPrice c now (.ok q) =
          (.ok q (some now), ⟨some q, some now, CACHE_TTL⟩) := by
        unfold getCachedBitcoinPrice
        rw [if_neg hcond]
      rw [hf] at h
      rw [hres] at h ⊢
      obtain ⟨hq, hts⟩ : q = p ∧ now = ts := by simpa using h
      simp [hq, hts]
    | fail e =>
      by_cases ht : truthyQ c.price = true
      · have hres : getCachedBitcoinPrice c now (.fail e) =
            (.ok (c.price.getD 0) c.timestamp, c) := by
          unfold getCachedBitcoinPrice
          rw [if_neg hcond]
          simp [ht]
        rw [hf] at h
        rw [hres] at h ⊢
        obtain ⟨hq, hts⟩ : c.price.getD 0 = p ∧ c.timestamp = some ts := by
          simpa using h
        refine ⟨?_, hts⟩
        cases hc : c.price with
        | none => rw [hc] at ht; simp [truthyQ] at ht
        | some q =>
          rw [hc] at hq
          simp at hq
          rw [hq]
      · have hres : getCachedBitcoinPrice c now (.fail e) = (.fail e, c) := by
          unfold getCachedBitcoinPrice
          rw [if_neg hcond]
          simp [ht]
        rw [hf] at h
        rw [hres] at h
        simp at h

/-- C6: the cached price read serves, for any second read within the ttl of
the cache left by a first successful read, exactly the first read's price
and fetch instant without touching the cache; a read whose fresh fetch
fails returns the cached price (at its original timestamp) whenever any
nonzero price is cached, again leaving the cache unchanged; and a read can
fail outward only when no price is cached. -/
theorem getCachedBitcoinPrice_spec (c : PriceCache) (now₁ : Nat)
    (f₁ : PriceFetch) (p : ℚ) (ts : Nat)
    (h1 : (getCachedBitcoinPrice c now₁ f₁).1 = CacheRead.ok p (some ts))
    (hp : p ≠ 0) (hts : ts ≠ 0) :
    (∀ now₂ f₂, now₂ - ts < (getCachedBitcoinPrice c now₁ f₁).2.ttl →
      getCachedBitcoinPrice (getCachedBitcoinPrice c now₁ f₁).2 now₂ f₂ =
        (CacheRead.ok p (some ts), (getCachedBitcoinPrice c now₁ f₁).2)) ∧
    (∀ (c' : PriceCache) (q : ℚ) (e : String), c'.price = some q → q ≠ 0 →
      getCachedBitcoinPrice c' now₁ (.fail e) =
        (CacheRead.ok q c'.timestamp, c')) ∧
    (∀ (c' : PriceCache) (f : PriceFetch) (e' : String),
      (getCachedBitcoinPrice c' now₁ f).1 = CacheRead.fail e' →
        truthyQ c'.price = false) := by
  refine ⟨?_, ?_, ?_⟩
  · intro now₂ f₂ hlt
    have hc := getCachedBitcoinPrice_ok_cache c now₁ f₁ p ts h1
    have hcond : truthyQ (getCachedBitcoinPrice c now₁ f₁).2.price = true ∧
        truthyN (getCachedBitcoinPrice c now₁ f₁).2.timestamp = true ∧
        now₂ - (getCachedBitcoinPrice c now₁ f₁).2.timestamp.getD 0 <
          (getCachedBitcoinPrice c now₁ f₁).2.ttl := by
      refine ⟨?_, ?_, ?_⟩
      · rw [hc.1]; simp [truthyQ, hp]
      · rw [hc.2]; simp [truthyN, hts]
      · rw [hc.2]; simpa using hlt
    rw [getCachedBitcoinPrice_hit _ _ _ hcond, hc.1, hc.2]
    simp
  · intro c' q e hq hq0
    by_cases hcond : truthyQ c'.price = true ∧ truthyN c'.timestamp = true ∧
        now₁ - c'.timestamp.getD 0 < c'.ttl
    · rw [getCachedBitcoinPrice_hit _ _ _ hcond, hq]
      simp
    · have hres : getCachedBitcoinPrice c' now₁ (.fail e) =
          (.ok (c'.price.getD 0) c'.timestamp, c') := by
        unfold getCachedBitcoinPrice
        rw [if_neg hcond]
        simp [hq, truthyQ, hq0]
      rw [hres, hq]
      simp
  · intro c' f e' hfail
    by_cases ht : truthyQ c'.price = true
    · exfalso
      by_cases hcond : truthyQ c'.price = true ∧ truthyN c'.timestamp = true ∧
          now₁ - c'.timestamp.getD 0 < c'.ttl
      · rw [getCachedBitcoinPrice_hit _ _ _ hcond] at hfail
        simp at hfail
      · cases f with
        | ok q =>
          have hres : getCachedBitcoinPrice c' now₁ (.ok q) =
              (.ok q (some now₁), ⟨some q, some now₁, CACHE_TTL⟩) := by
            unfold getCachedBitcoinPrice
            rw [if_neg hcond]
          rw [hres] at hfail
          simp at hfail
        | fail e =>
          have hres : getCachedBitcoinPrice c' now₁ (.fail e) =
              (.ok (c'.price.getD 0) c'.timestamp, c') := by
            unfold getCachedBitcoinPrice
            rw [if_neg hcond]
            simp [ht]
          rw [hres] at hfail
          simp at hfail
    · simpa using ht

/-- Witness for C6: a cold cache filled at instant 1000 serves the same
price and instant at 1100 whatever the second fetch does, and a warm cache
absorbs a fetch failure. -/
theorem getCachedBitcoinPrice_spec_witness :
    getCachedBitcoinPrice (getCachedBitcoinPrice ⟨none, none, 200000⟩ 1000
        (.ok 50000)).2 1100 (.fail "x") =
      (CacheRead.ok 50000 (some 1000),
        (getCachedBitcoinPrice ⟨none, none, 200000⟩ 1000 (.ok 50000)).2) ∧
    getCachedBitcoinPrice ⟨some 42, some 5, 10⟩ 1000 (.fail "y") =
      (CacheRead.ok 42 (some 5), ⟨some 42, some 5, 10⟩) := by
  have h := getCachedBitcoinPrice_spec ⟨none, none, 200000⟩ 1000 (.ok 50000)
    50000 1000 (by decide) (by decide) (by decide)
  exact ⟨h.1 1100 (.fail "x") (by decide),
    h.2.1 ⟨some 42, some 5, 10⟩ 42 "y" rfl (by decide)⟩

end BitcoinGuess
